import Mathlib

/-!
Verification of the osdu_perf execution core against its specification.

The embedding models, from the source:
- the per-service header dictionaries handled by `PerformanceUser.execute_services`
  (src/osdu_perf/locust/user_base.py, lines 38-83) as association lists,
- a registered service as a record of its four lifecycle behaviours; each stage
  behaviour may differ per iteration (first argument), may mutate the header dict
  it is passed (the returned `Headers`) and may raise (the returned `Bool`),
- the driver itself as a function from the service list and the session base
  headers to the list of lifecycle calls it performs, each call recorded as an
  `Event` carrying the headers argument passed to the service.

Python exceptions are data (`Bool` raise flags / `TokenOutcome.raised`), so the
driver's try/except structure becomes explicit branching.
-/

namespace OsduPerf

/-- Header dictionaries (python `dict[str, str]`) as association lists. -/
abbrev Headers := List (String × String)

/-- Python dict lookup: value of the first binding of key `k`. -/
def getH : Headers → String → Option String
  | [], _ => none
  | (k0, v0) :: rest, k => if k0 = k then some v0 else getH rest k

/-- Python dict assignment `d[k] = v`: update the binding of `k` in place if
present, else append a new binding at the end. -/
def setH : Headers → String → String → Headers
  | [], k, v => [(k, v)]
  | (k0, v0) :: rest, k, v =>
    if k0 = k then (k0, v) :: rest else (k0, v0) :: setH rest k v

/-- Outcome of calling `service.provide_explicit_token()`: the call may raise,
or return a value (`None` modelled as `none`, a string `t` as `some t`). -/
inductive TokenOutcome
  | raised
  | returned (t : Option String)
deriving DecidableEq

/-- A registered service as seen by the execution driver.  The `has*` flags model
the driver's `hasattr(...) and callable(...)` guards.  A stage behaviour takes
the iteration number (services are stateful python objects, so behaviour may
change between iterations) and the header dict it is handed, and yields the
dict contents after any in-place mutation it performed together with a flag
telling whether the call raised. -/
structure Service where
  hasProvideToken : Bool
  provideToken : Nat → TokenOutcome
  hasPrehook : Bool
  prehook : Nat → Headers → Headers × Bool
  hasExecute : Bool
  execute : Nat → Headers → Headers × Bool
  hasPosthook : Bool
  posthook : Nat → Headers → Headers × Bool

/-- One lifecycle call performed by the driver, recording the index of the
service in registration order and (for the three hook calls) the headers
argument passed. -/
inductive Event
  | provideCall (svc : Nat)
  | prehookCall (svc : Nat) (headers : Headers)
  | executeCall (svc : Nat) (headers : Headers)
  | posthookCall (svc : Nat) (headers : Headers)
deriving DecidableEq

/-- Index (registration order) of the service a call was made on. -/
def Event.svc : Event → Nat
  | .provideCall j => j
  | .prehookCall j _ => j
  | .executeCall j _ => j
  | .posthookCall j _ => j

/-- Fixed rank of each lifecycle stage: token-provision, prehook, execute,
posthook. -/
def eventRank : Event → Nat
  | .provideCall _ => 0
  | .prehookCall _ _ => 1
  | .executeCall _ _ => 2
  | .posthookCall _ _ => 3

/-- Lines 43-51 of user_base.py: the guarded `provide_explicit_token` block.
A raising call leaves the header copy untouched; a falsy return value (`None`
or the empty string) skips the override; otherwise
`header[Authorization] = "Bearer " + token`. -/
def applyOverride (s : Service) (i : Nat) (header : Headers) : Headers :=
  if s.hasProvideToken then
    match s.provideToken i with
    | .raised => header
    | .returned none => header
    | .returned (some t) =>
      if t = "" then header else setH header "Authorization" ("Bearer " ++ t)
  else header

/-- Lines 75-83 of user_base.py: the guarded posthook block (a raising posthook
is only logged, so its raise flag does not affect the trace). -/
def runPost (s : Service) (i j : Nat) (header : Headers) : List Event :=
  if s.hasPosthook then [Event.posthookCall j header] else []

/-- Lines 65-83 of user_base.py: the guarded execute block followed by the
posthook block.  The dict as mutated by execute (raising or not) is the very
dict posthook receives. -/
def runExecPost (s : Service) (i j : Nat) (header : Headers) : List Event :=
  if s.hasExecute then
    Event.executeCall j header :: runPost s i j (s.execute i header).1
  else runPost s i j header

/-- Lines 53-83 of user_base.py: the guarded prehook block; a raising prehook
hits the `continue` statement, skipping execute and posthook for this service,
while a successful prehook hands its (possibly mutated) dict on. -/
def runPrehook (s : Service) (i j : Nat) (header : Headers) : List Event :=
  if s.hasPrehook then
    if (s.prehook i header).2 then [Event.prehookCall j header]
    else Event.prehookCall j header :: runExecPost s i j (s.prehook i header).1
  else runExecPost s i j header

/-- Loop body of `execute_services` (lines 40-83) for the service at index `j`
in iteration `i`: `header = dict(self.input_handler.header)` makes the stage
blocks start from a private copy of `base`, then the token override and the
three guarded hook blocks run. -/
def runService (s : Service) (i j : Nat) (base : Headers) : List Event :=
  (if s.hasProvideToken then [Event.provideCall j] else []) ++
    runPrehook s i j (applyOverride s i base)

/-- The `for service in self.services` loop, visiting services in registration
order; `j` is the index of the first remaining service. -/
def loopServices : List Service → Nat → Nat → Headers → List Event
  | [], _, _, _ => []
  | s :: rest, i, j, base => runService s i j base ++ loopServices rest i (j + 1) base

/-- `PerformanceUser.execute_services`: one `@task` invocation (iteration `i`)
over the registered services with the session base headers. -/
def execute_services (S : List Service) (i : Nat) (base : Headers) : List Event :=
  loopServices S i 0 base

/-- `n` scheduled invocations of `execute_services` in one session.  The base
header set is built once by `InputHandler.__init__` and never reassigned, so
every iteration reads the same `base`. -/
def runIterations (S : List Service) (base : Headers) : Nat → List Event
  | 0 => []
  | n + 1 => runIterations S base n ++ execute_services S n base

/-- All events whose service index is `j`. -/
def eventsOf (j : Nat) (tr : List Event) : List Event :=
  tr.filter (fun e => e.svc == j)

/-- The headers arguments of the prehook calls in a trace. -/
def prehookArgs (tr : List Event) : List Headers :=
  tr.filterMap (fun e =>
    match e with
    | .prehookCall _ h => some h
    | _ => none)

/-- The headers arguments of all hook calls in a trace. -/
def headersArgs (tr : List Event) : List Headers :=
  tr.filterMap (fun e =>
    match e with
    | .provideCall _ => none
    | .prehookCall _ h => some h
    | .executeCall _ h => some h
    | .posthookCall _ h => some h)

/-! ### Credential/Header Provider (src/osdu_perf/core/input_handler.py) -/

/-- The credential acquisition strategy picked by `InputHandler.prepare_headers`:
`ManagedIdentity` for Azure Load Testing (production), `AzureCli` for local
development. -/
inductive AuthStrategy
  | managedIdentity
  | azureCli
deriving DecidableEq

/-- `InputHandler._detect_azure_load_test_environment` (input_handler.py,
lines 29-60): the environment is a lookup from variable name to its value
(`none` when unset, mirroring `os.getenv`).  The chain of early returns reads
exactly five variables. -/
def detect_azure_load_test_environment (env : String → Option String) : Bool :=
  if env "AZURE_LOAD_TEST" = some "true" then true
  else if env "LOCUST_HOST" ≠ none then true
  else if env "LOCUST_USERS" ≠ none then true
  else if env "LOCUST_RUN_TIME" ≠ none then true
  else if env "LOCUST_SPAWN_RATE" ≠ none then true
  else false

/-- The strategy branch of `prepare_headers` (lines 72-79):
`use_managed_identity` is exactly `is_azure_load_test_env`, which
`InputHandler.__init__` sets from the detection function. -/
def credentialStrategy (env : String → Option String) : AuthStrategy :=
  if detect_azure_load_test_environment env then AuthStrategy.managedIdentity
  else AuthStrategy.azureCli

/-- Outcome of one token acquisition attempt against the identity provider:
either a bearer string was obtained, or the underlying credential call failed
(raised). -/
inductive TokenAcquisition
  | token (t : String)
  | failure
deriving DecidableEq

/-- Modelled from the spec: `AzureTokenManager.get_access_token`
(src/osdu_perf/core/auth.py is not under src; only tests/unit/test_auth.py is).
Per spec section 7, credential acquisition errors are recovered locally, and
test_get_access_token_authentication_error / test_get_access_token_unexpected_error
assert the method returns `None` when the credential raises, rather than
propagating the exception. -/
def get_access_token : TokenAcquisition → Option String
  | .token t => some t
  | .failure => none

/-- Python f-string interpolation of a possibly-`None` value:
`f"Bearer \x7btoken\x7d"` renders `None` as the literal string `None`. -/
def pyInterp : Option String → String
  | some t => t
  | none => "None"

/-- `InputHandler.prepare_headers` (input_handler.py, lines 62-90): chooses the
token manager from `is_azure_load_test_env`, asks it for an access token
(`acq` gives the acquisition outcome for each choice of `use_managed_identity`)
and builds the four-entry header dict. -/
def prepare_headers (is_azure_load_test_env : Bool) (partition app_id : String)
    (acq : Bool → TokenAcquisition) : Headers :=
  [("Content-Type", "application/json"),
   ("x-data-partition-id", partition),
   ("x-correlation-id", app_id),
   ("Authorization", "Bearer " ++ pyInterp (get_access_token (acq is_azure_load_test_env)))]

/-! ### Service Registry (Orchestrator) -/

/-- A live service instance held by the registry.  `iid` models python object
identity (two distinct instances differ even when their `name` attributes
agree); `name` is the optional `name` attribute. -/
structure ServiceInstance where
  iid : Nat
  name : Option String
deriving DecidableEq

/-- Modelled from the spec: `ServiceOrchestrator`
(src/osdu_perf/core/service_orchestrator.py is not under src; only
tests/unit/test_service_orchestrator.py is).  Spec section 4.2: discovery
appends an instantiated service to the registry only if an equal instance is
not already present (idempotence on accidental double-registration); the
test file cites the source check `if service_instance not in self._services`. -/
def register_instance (services : List ServiceInstance) (s : ServiceInstance) :
    List ServiceInstance :=
  if s ∈ services then services else services ++ [s]

/-- Modelled from the spec: `ServiceOrchestrator.unregister_service`; spec
section 4.2 and test_unregister_nonexistent_service: removes the instance if
present; removing an absent instance is a no-op, not an error. -/
def unregister_service (services : List ServiceInstance) (s : ServiceInstance) :
    List ServiceInstance :=
  if s ∈ services then services.erase s else services

/-- Modelled from the spec: `ServiceOrchestrator.get_services` returns the
current registry contents in registration order. -/
def get_services (services : List ServiceInstance) : List ServiceInstance :=
  services

/-- Modelled from the spec: `ServiceOrchestrator.find_service` is first-match
lookup by the `name` attribute; instances lacking a name never match. -/
def find_service (services : List ServiceInstance) (n : String) :
    Option ServiceInstance :=
  services.find? (fun s => s.name == some n)

/-! ### Keyword-argument binding of the contract signatures
(src/osdu_perf/core/base_service.py against src/osdu_perf/locust/user_base.py) -/

/-- The keyword-bindable parameter names (besides `self`) a python method
declares. -/
structure PyMethodSig where
  kwparams : List String
deriving DecidableEq

/-- `BaseService.execute(self, headers=None, partition=None, host=None)`
(base_service.py, line 16). -/
def base_service_execute_sig : PyMethodSig :=
  ⟨["headers", "partition", "host"]⟩

/-- `BaseService.prehook(self)` (base_service.py, line 32). -/
def base_service_prehook_sig : PyMethodSig :=
  ⟨[]⟩

/-- `BaseService.posthook(self)` (base_service.py, line 39). -/
def base_service_posthook_sig : PyMethodSig :=
  ⟨[]⟩

/-- The keyword arguments the driver passes to each of `prehook`, `execute`
and `posthook` (user_base.py, lines 55-81). -/
def driver_call_kwargs : List String :=
  ["headers", "partition", "base_url"]

/-- A python keyword call binds successfully against a signature whose
parameters all carry defaults exactly when every passed keyword names a
declared parameter; an unknown keyword raises `TypeError` at call time. -/
def bindsKwargs (sig : PyMethodSig) (kwargs : List String) : Bool :=
  kwargs.all (fun k => sig.kwparams.contains k)

/-! ### Concrete inputs used by the witness theorems -/

/-- A concrete session base header set, as `prepare_headers` would build it. -/
def baseHeadersW : Headers :=
  [("Content-Type", "application/json"),
   ("x-data-partition-id", "p1"),
   ("x-correlation-id", "app1"),
   ("Authorization", "Bearer session-token")]

/-- A service that overrides the session token, mutates its header copy in
prehook and execute, and whose execute raises. -/
def svcMutW : Service where
  hasProvideToken := true
  provideToken := fun _ => TokenOutcome.returned (some "tokA")
  hasPrehook := true
  prehook := fun _ h => (setH h "X-Marker" "pre", false)
  hasExecute := true
  execute := fun _ h => (setH h "Authorization" "Bearer stolen", true)
  hasPosthook := true
  posthook := fun _ h => (h, false)

/-- A well-behaved service: no token override, hooks leave the dict unchanged
and never raise. -/
def svcPlainW : Service where
  hasProvideToken := true
  provideToken := fun _ => TokenOutcome.returned none
  hasPrehook := true
  prehook := fun _ h => (h, false)
  hasExecute := true
  execute := fun _ h => (h, false)
  hasPosthook := true
  posthook := fun _ h => (h, false)

/-- A service whose `provide_explicit_token` raises. -/
def svcProvideRaisesW : Service where
  hasProvideToken := true
  provideToken := fun _ => TokenOutcome.raised
  hasPrehook := true
  prehook := fun _ h => (h, false)
  hasExecute := true
  execute := fun _ h => (h, false)
  hasPosthook := true
  posthook := fun _ h => (h, false)

/-- A service whose prehook raises. -/
def svcPrehookRaisesW : Service where
  hasProvideToken := true
  provideToken := fun _ => TokenOutcome.returned none
  hasPrehook := true
  prehook := fun _ h => (h, true)
  hasExecute := true
  execute := fun _ h => (h, false)
  hasPosthook := true
  posthook := fun _ h => (h, false)

/-- A service that overrides the token with `tok123` and has identity hooks. -/
def svcOverrideW : Service where
  hasProvideToken := true
  provideToken := fun _ => TokenOutcome.returned (some "tok123")
  hasPrehook := true
  prehook := fun _ h => (h, false)
  hasExecute := true
  execute := fun _ h => (h, false)
  hasPosthook := true
  posthook := fun _ h => (h, false)

/-- An environment in which only `LOCUST_HOST` is set. -/
def envLoadTestW : String → Option String :=
  fun k => if k = "LOCUST_HOST" then some "https://example.org" else none

/-- An environment with none of the recognized variables set. -/
def envLocalW : String → Option String :=
  fun _ => none

/-- A token acquisition that always fails (the credential raises). -/
def acqFailW : Bool → TokenAcquisition :=
  fun _ => TokenAcquisition.failure

/-- Two distinct registry instances sharing the same `name` attribute. -/
def instW0 : ServiceInstance := ⟨0, some "storage"⟩

/-- Second instance with the same name as `instW0` but different identity. -/
def instW1 : ServiceInstance := ⟨1, some "storage"⟩

/-! ### Basic lemmas about the header and trace model -/

theorem getH_setH_self (h : Headers) (k v : String) : getH (setH h k v) k = some v := by
  induction h with
  | nil => simp [setH, getH]
  | cons p rest ih =>
    obtain ⟨k0, v0⟩ := p
    by_cases hk : k0 = k
    · simp [setH, getH, hk]
    · simp [setH, getH, hk, ih]

theorem getH_setH_ne (h : Headers) (k k1 v : String) (hne : k1 ≠ k) :
    getH (setH h k1 v) k = getH h k := by
  induction h with
  | nil => simp [setH, getH, hne]
  | cons p rest ih =>
    obtain ⟨k0, v0⟩ := p
    by_cases hk : k0 = k1
    · subst hk
      simp [setH, getH, hne]
    · simp [setH, getH, hk, ih]

theorem mem_runPost_svc {s : Service} {i j : Nat} {header : Headers} {e : Event}
    (he : e ∈ runPost s i j header) : e.svc = j := by
  unfold runPost at he
  split at he
  · simp at he
    subst he
    rfl
  · simp at he

theorem mem_runExecPost_svc {s : Service} {i j : Nat} {header : Headers} {e : Event}
    (he : e ∈ runExecPost s i j header) : e.svc = j := by
  unfold runExecPost at he
  split at he
  · rcases List.mem_cons.mp he with h | h
    · subst h; rfl
    · exact mem_runPost_svc h
  · exact mem_runPost_svc he

theorem mem_runPrehook_svc {s : Service} {i j : Nat} {header : Headers} {e : Event}
    (he : e ∈ runPrehook s i j header) : e.svc = j := by
  unfold runPrehook at he
  split at he
  · split at he
    · simp at he
      subst he
      rfl
    · rcases List.mem_cons.mp he with h | h
      · subst h; rfl
      · exact mem_runExecPost_svc h
  · exact mem_runExecPost_svc he

theorem mem_runService_svc {s : Service} {i j : Nat} {base : Headers} {e : Event}
    (he : e ∈ runService s i j base) : e.svc = j := by
  unfold runService at he
  rcases List.mem_append.mp he with h | h
  · split at h
    · simp at h
      subst h
      rfl
    · simp at h
  · exact mem_runPrehook_svc h

theorem eventsOf_append (j : Nat) (a b : List Event) :
    eventsOf j (a ++ b) = eventsOf j a ++ eventsOf j b := by
  unfold eventsOf
  exact List.filter_append a b

theorem eventsOf_runService_self (s : Service) (i j : Nat) (base : Headers) :
    eventsOf j (runService s i j base) = runService s i j base := by
  unfold eventsOf
  refine List.filter_eq_self.mpr ?_
  intro e he
  simp [mem_runService_svc he]

theorem eventsOf_runService_ne (s : Service) (i j k : Nat) (base : Headers) (hk : k ≠ j) :
    eventsOf k (runService s i j base) = [] := by
  unfold eventsOf
  refine List.filter_eq_nil_iff.mpr ?_
  intro e he
  rw [mem_runService_svc he]
  simp only [beq_iff_eq]
  exact fun h => hk h.symm

theorem mem_loopServices_le {S : List Service} {i j : Nat} {base : Headers} {e : Event}
    (he : e ∈ loopServices S i j base) : j ≤ e.svc := by
  induction S generalizing j with
  | nil => simp [loopServices] at he
  | cons s rest ih =>
    unfold loopServices at he
    rcases List.mem_append.mp he with h | h
    · exact le_of_eq (mem_runService_svc h).symm
    · exact Nat.le_of_succ_le (ih h)

theorem eventsOf_loopServices (S : List Service) (i j k : Nat) (base : Headers)
    (hk : k < S.length) :
    eventsOf (j + k) (loopServices S i j base) = runService S[k] i (j + k) base := by
  induction S generalizing j k with
  | nil => simp at hk
  | cons s rest ih =>
    unfold loopServices
    rw [eventsOf_append]
    cases k with
    | zero =>
      simp only [Nat.add_zero, List.getElem_cons_zero]
      rw [eventsOf_runService_self]
      have htail : eventsOf j (loopServices rest i (j + 1) base) = [] := by
        unfold eventsOf
        refine List.filter_eq_nil_iff.mpr ?_
        intro e he
        have := mem_loopServices_le he
        simp only [beq_iff_eq]
        omega
      rw [htail, List.append_nil]
    | succ m =>
      have hm : m < rest.length := by simpa using hk
      have h1 : eventsOf (j + (m + 1)) (runService s i j base) = [] := by
        refine eventsOf_runService_ne s i j _ base ?_
        omega
      have h2 := ih (j + 1) m hm
      rw [h1, List.nil_append]
      have harith : j + 1 + m = j + (m + 1) := by omega
      rw [harith] at h2
      simpa using h2

theorem eventsOf_execute_services (S : List Service) (i k : Nat) (base : Headers)
    (hk : k < S.length) :
    eventsOf k (execute_services S i base) = runService S[k] i k base := by
  have := eventsOf_loopServices S i 0 k base hk
  simpa [execute_services] using this

theorem eventsOf_runIterations (S : List Service) (base : Headers) (n k : Nat)
    (hk : k < S.length) :
    eventsOf k (runIterations S base n) =
      ((List.range n).map (fun i => runService S[k] i k base)).flatten := by
  induction n with
  | zero => simp [runIterations, eventsOf]
  | succ m ih =>
    unfold runIterations
    rw [eventsOf_append, ih, List.range_succ, List.map_append, List.flatten_append,
      eventsOf_execute_services S m k base hk]
    simp

/-! ### Stage structure lemmas -/

theorem prehookArgs_append (a b : List Event) :
    prehookArgs (a ++ b) = prehookArgs a ++ prehookArgs b := by
  unfold prehookArgs
  exact List.filterMap_append a b _

theorem prehookArgs_runPost (s : Service) (i j : Nat) (header : Headers) :
    prehookArgs (runPost s i j header) = [] := by
  unfold runPost prehookArgs
  split <;> simp

theorem prehookArgs_runExecPost (s : Service) (i j : Nat) (header : Headers) :
    prehookArgs (runExecPost s i j header) = [] := by
  unfold runExecPost
  split
  · simpa [prehookArgs] using prehookArgs_runPost s i j (s.execute i header).1
  · exact prehookArgs_runPost s i j header

theorem prehookArgs_runPrehook (s : Service) (i j : Nat) (header : Headers) :
    prehookArgs (runPrehook s i j header) =
      if s.hasPrehook = true then [header] else [] := by
  unfold runPrehook
  split
  · split
    · simp [prehookArgs]
    · simpa [prehookArgs] using prehookArgs_runExecPost s i j (s.prehook i header).1
  · rename_i hpre
    simp only [Bool.not_eq_true] at hpre
    simp [hpre, prehookArgs_runExecPost]

theorem prehookArgs_runService (s : Service) (i j : Nat) (base : Headers) :
    prehookArgs (runService s i j base) =
      if s.hasPrehook = true then [applyOverride s i base] else [] := by
  unfold runService
  rw [prehookArgs_append]
  have h1 : prehookArgs (if s.hasProvideToken then [Event.provideCall j] else []) = [] := by
    split <;> simp [prehookArgs]
  rw [h1, List.nil_append, prehookArgs_runPrehook]

theorem headersArgs_runPost_mem {s : Service} {i j : Nat} {header h : Headers}
    (hmem : h ∈ headersArgs (runPost s i j header)) : h = header := by
  unfold runPost headersArgs at hmem
  split at hmem <;> simp at hmem
  exact hmem

theorem headersArgs_runExecPost_auth {s : Service} {i j : Nat} {header h : Headers}
    (hexec : ∀ x, getH (s.execute i x).1 "Authorization" = getH x "Authorization")
    (hmem : h ∈ headersArgs (runExecPost s i j header)) :
    getH h "Authorization" = getH header "Authorization" := by
  unfold runExecPost at hmem
  split at hmem
  · rw [headersArgs, List.filterMap_cons] at hmem
    simp only at hmem
    rcases List.mem_cons.mp hmem with h1 | h1
    · rw [h1]
    · rw [headersArgs_runPost_mem h1, hexec]
  · rw [headersArgs_runPost_mem hmem]

theorem headersArgs_runPrehook_auth {s : Service} {i j : Nat} {header h : Headers}
    (hpre : ∀ x, getH (s.prehook i x).1 "Authorization" = getH x "Authorization")
    (hexec : ∀ x, getH (s.execute i x).1 "Authorization" = getH x "Authorization")
    (hmem : h ∈ headersArgs (runPrehook s i j header)) :
    getH h "Authorization" = getH header "Authorization" := by
  unfold runPrehook at hmem
  split at hmem
  · split at hmem
    · simp [headersArgs] at hmem
      rw [hmem]
    · rw [headersArgs, List.filterMap_cons] at hmem
      simp only at hmem
      rcases List.mem_cons.mp hmem with h1 | h1
      · rw [h1]
      · rw [headersArgs_runExecPost_auth hexec h1, hpre]
  · exact headersArgs_runExecPost_auth hexec hmem

theorem headersArgs_runService_auth {s : Service} {i j : Nat} {base h : Headers}
    (hpre : ∀ x, getH (s.prehook i x).1 "Authorization" = getH x "Authorization")
    (hexec : ∀ x, getH (s.execute i x).1 "Authorization" = getH x "Authorization")
    (hmem : h ∈ headersArgs (runService s i j base)) :
    getH h "Authorization" = getH (applyOverride s i base) "Authorization" := by
  unfold runService at hmem
  rw [headersArgs, List.filterMap_append] at hmem
  rcases List.mem_append.mp hmem with h1 | h1
  · exfalso
    revert h1
    split <;> simp
  · exact headersArgs_runPrehook_auth hpre hexec h1

/-! ### Override lemmas -/

theorem applyOverride_some (s : Service) (i : Nat) (base : Headers) (v : String)
    (hp : s.hasProvideToken = true)
    (hv : s.provideToken i = TokenOutcome.returned (some v)) (hne : v ≠ "") :
    applyOverride s i base = setH base "Authorization" ("Bearer " ++ v) := by
  simp [applyOverride, hp, hv, hne]

theorem applyOverride_noOverride (s : Service) (i : Nat) (base : Headers)
    (h : s.provideToken i = TokenOutcome.raised ∨
      s.provideToken i = TokenOutcome.returned none ∨
      s.provideToken i = TokenOutcome.returned (some "")) :
    applyOverride s i base = base := by
  unfold applyOverride
  cases hp : s.hasProvideToken
  · simp
  · rcases h with h | h | h <;> simp [h]

/-! ### Fault containment and ordering lemmas -/

theorem posthook_mem_runPrehook (s : Service) (i j : Nat) (header : Headers)
    (h4 : s.hasPosthook = true)
    (hnr : s.hasPrehook = true → (s.prehook i header).2 = false) :
    ∃ h, Event.posthookCall j h ∈ runPrehook s i j header := by
  unfold runPrehook runExecPost runPost
  cases hpre : s.hasPrehook
  · cases hex : s.hasExecute <;> simp [h4, hex]
  · rw [hnr hpre]
    cases hex : s.hasExecute <;> simp [h4, hex]

theorem posthook_mem_runService (s : Service) (i j : Nat) (base : Headers)
    (h4 : s.hasPosthook = true)
    (hnr : s.hasPrehook = true → (s.prehook i (applyOverride s i base)).2 = false) :
    ∃ h, Event.posthookCall j h ∈ runService s i j base := by
  obtain ⟨h, hmem⟩ := posthook_mem_runPrehook s i j (applyOverride s i base) h4 hnr
  exact ⟨h, by unfold runService; exact List.mem_append_right _ hmem⟩

theorem runService_full (s : Service) (i j : Nat) (base : Headers)
    (h1 : s.hasProvideToken = true) (h2 : s.hasPrehook = true)
    (h3 : s.hasExecute = true) (h4 : s.hasPosthook = true)
    (hnr : (s.prehook i (applyOverride s i base)).2 = false) :
    runService s i j base =
      [Event.provideCall j,
       Event.prehookCall j (applyOverride s i base),
       Event.executeCall j ((s.prehook i (applyOverride s i base)).1),
       Event.posthookCall j
         ((s.execute i ((s.prehook i (applyOverride s i base)).1)).1)] := by
  simp [runService, runPrehook, runExecPost, runPost, h1, h2, h3, h4, hnr]

theorem chain_rank_runService (s : Service) (i j : Nat) (base : Headers) :
    List.Chain' (· < ·) ((runService s i j base).map eventRank) := by
  unfold runService runPrehook runExecPost runPost
  cases hp : s.hasProvideToken <;> cases h1 : s.hasPrehook <;>
    cases h2 : s.hasExecute <;> cases h3 : s.hasPosthook <;>
      simp only [hp, h1, h2, h3, if_true, if_false, Bool.false_eq_true, Bool.true_eq_false,
        ite_true, ite_false, List.nil_append, List.cons_append, List.append_nil] <;>
      first
        | (split <;> simp [eventRank, List.chain'_cons])
        | simp [eventRank, List.chain'_cons]

theorem pairwise_le_of_all_eq (l : List Nat) (a : Nat) (h : ∀ x ∈ l, x = a) :
    l.Pairwise (· ≤ ·) := by
  induction l with
  | nil => exact List.Pairwise.nil
  | cons x xs ih =>
    refine List.Pairwise.cons ?_ (ih fun y hy => h y (List.mem_cons_of_mem _ hy))
    intro y hy
    rw [h x (List.mem_cons_self _ _), h y (List.mem_cons_of_mem _ hy)]

theorem sorted_svc_loopServices (S : List Service) (i j : Nat) (base : Headers) :
    List.Sorted (· ≤ ·) ((loopServices S i j base).map Event.svc) := by
  induction S generalizing j with
  | nil => simp [loopServices]
  | cons s rest ih =>
    unfold loopServices
    rw [List.map_append]
    refine List.pairwise_append.mpr ⟨?_, ih (j + 1), ?_⟩
    · refine pairwise_le_of_all_eq _ j fun x hx => ?_
      obtain ⟨e, he, rfl⟩ := List.mem_map.mp hx
      exact mem_runService_svc he
    · intro a ha b hb
      obtain ⟨e, he, rfl⟩ := List.mem_map.mp ha
      obtain ⟨f, hf, rfl⟩ := List.mem_map.mp hb
      rw [mem_runService_svc he]
      exact Nat.le_of_succ_le (mem_loopServices_le hf)

/-! ### Claim theorems -/

/-- Claim C1, per-service header isolation: across any number of iterations, the
lifecycle calls the driver makes on the service at index `j` (and in particular
every headers argument passed to it) are a function of the session base header
set and of service `j` alone — fully independent of every other registered
service's behaviour, including any header mutation or Authorization override
they perform; moreover in every iteration the headers argument passed to `j`'s
prehook is exactly the fresh copy of the session base (after `j`'s own optional
override), so `j`'s own earlier-iteration mutations are not observable either. -/
theorem claim1_header_isolation (n : Nat) (S : List Service) (base : Headers) (j : Nat)
    (hj : j < S.length) :
    eventsOf j (runIterations S base n) =
      ((List.range n).map (fun i => runService S[j] i j base)).flatten
    ∧ ∀ i : Nat, prehookArgs (runService S[j] i j base) =
        if S[j].hasPrehook = true then [applyOverride S[j] i base] else [] :=
  ⟨eventsOf_runIterations S base n j hj,
   fun i => prehookArgs_runService S[j] i j base⟩

/-- Witness for C1 at a concrete input: a mutating, overriding, raising service
at index 0 and a plain service at index 1, run for two iterations. -/
theorem claim1_header_isolation_witness :
    1 < ([svcMutW, svcPlainW] : List Service).length
    ∧ (eventsOf 1 (runIterations [svcMutW, svcPlainW] baseHeadersW 2) =
        ((List.range 2).map (fun i => runService svcPlainW i 1 baseHeadersW)).flatten
      ∧ ∀ i : Nat, prehookArgs (runService svcPlainW i 1 baseHeadersW) =
          if svcPlainW.hasPrehook = true then [applyOverride svcPlainW i baseHeadersW]
          else []) :=
  ⟨by decide, claim1_header_isolation 2 [svcMutW, svcPlainW] baseHeadersW 1 (by decide)⟩

/-- Claim C3, prehook short-circuit: if the prehook of the service at index `j`
raises, that service's trace in the iteration consists of the token-provision
call and the prehook call only — its execute and posthook are never called —
while every other registered service's trace is exactly what it would be in
isolation. -/
theorem claim3_prehook_short_circuit (i : Nat) (S : List Service) (base : Headers)
    (j : Nat) (hj : j < S.length)
    (hpre : S[j].hasPrehook = true)
    (hraise : (S[j].prehook i (applyOverride S[j] i base)).2 = true) :
    eventsOf j (execute_services S i base) =
      (if S[j].hasProvideToken = true then [Event.provideCall j] else []) ++
        [Event.prehookCall j (applyOverride S[j] i base)]
    ∧ (∀ h : Headers, Event.executeCall j h ∉ execute_services S i base
        ∧ Event.posthookCall j h ∉ execute_services S i base)
    ∧ (∀ k, (hk : k < S.length) → k ≠ j →
        eventsOf k (execute_services S i base) = runService S[k] i k base) := by
  have heq : eventsOf j (execute_services S i base) =
      (if S[j].hasProvideToken = true then [Event.provideCall j] else []) ++
        [Event.prehookCall j (applyOverride S[j] i base)] := by
    rw [eventsOf_execute_services S i j base hj]
    unfold runService runPrehook
    simp [hpre, hraise]
  refine ⟨heq, ?_, fun k hk _ => eventsOf_execute_services S i k base hk⟩
  intro h
  constructor
  · intro hmem
    have hof : Event.executeCall j h ∈ eventsOf j (execute_services S i base) := by
      unfold eventsOf
      exact List.mem_filter.mpr ⟨hmem, by simp [Event.svc]⟩
    rw [heq] at hof
    rcases List.mem_append.mp hof with hx | hx
    · revert hx
      split <;> simp
    · simp at hx
  · intro hmem
    have hof : Event.posthookCall j h ∈ eventsOf j (execute_services S i base) := by
      unfold eventsOf
      exact List.mem_filter.mpr ⟨hmem, by simp [Event.svc]⟩
    rw [heq] at hof
    rcases List.mem_append.mp hof with hx | hx
    · revert hx
      split <;> simp
    · simp at hx

/-- Witness for C3 at a concrete input: the service at index 0 has a raising
prehook; the plain service at index 1 is unaffected. -/
theorem claim3_prehook_short_circuit_witness :
    0 < ([svcPrehookRaisesW, svcPlainW] : List Service).length
    ∧ svcPrehookRaisesW.hasPrehook = true
    ∧ (svcPrehookRaisesW.prehook 0 (applyOverride svcPrehookRaisesW 0 baseHeadersW)).2 = true
    ∧ (eventsOf 0 (execute_services [svcPrehookRaisesW, svcPlainW] 0 baseHeadersW) =
        (if svcPrehookRaisesW.hasProvideToken = true then [Event.provideCall 0] else []) ++
          [Event.prehookCall 0 (applyOverride svcPrehookRaisesW 0 baseHeadersW)]
      ∧ (∀ h : Headers,
          Event.executeCall 0 h ∉ execute_services [svcPrehookRaisesW, svcPlainW] 0 baseHeadersW
          ∧ Event.posthookCall 0 h ∉ execute_services [svcPrehookRaisesW, svcPlainW] 0 baseHeadersW)
      ∧ (∀ k, (hk : k < ([svcPrehookRaisesW, svcPlainW] : List Service).length) → k ≠ 0 →
          eventsOf k (execute_services [svcPrehookRaisesW, svcPlainW] 0 baseHeadersW) =
            runService ([svcPrehookRaisesW, svcPlainW] : List Service)[k] 0 k baseHeadersW)) :=
  ⟨by decide, by decide, by decide,
   claim3_prehook_short_circuit 0 [svcPrehookRaisesW, svcPlainW] baseHeadersW 0
     (by decide) (by decide) (by decide)⟩

/-- Claim C10, single shared header object per service per iteration: when a
service (with all four lifecycle methods) has a non-raising prehook, the driver
threads one header dict through its stages — prehook receives the fresh
(post-override) copy, execute receives exactly the dict as prehook left it, and
posthook receives exactly the dict as execute left it — so a mutation made by
the service's own prehook is visible to its own execute and posthook. -/
theorem claim10_shared_header_object (s : Service) (i j : Nat) (base : Headers)
    (h1 : s.hasProvideToken = true) (h2 : s.hasPrehook = true)
    (h3 : s.hasExecute = true) (h4 : s.hasPosthook = true)
    (hnr : (s.prehook i (applyOverride s i base)).2 = false) :
    runService s i j base =
      [Event.provideCall j,
       Event.prehookCall j (applyOverride s i base),
       Event.executeCall j ((s.prehook i (applyOverride s i base)).1),
       Event.posthookCall j
         ((s.execute i ((s.prehook i (applyOverride s i base)).1)).1)]
    ∧ headersArgs (runService s i j base) =
        [applyOverride s i base,
         (s.prehook i (applyOverride s i base)).1,
         (s.execute i ((s.prehook i (applyOverride s i base)).1)).1] := by
  have h := runService_full s i j base h1 h2 h3 h4 hnr
  refine ⟨h, ?_⟩
  rw [h]
  simp [headersArgs]

/-- Witness for C10 at a concrete input: `svcMutW` mutates in prehook, and the
equation exhibits that mutated dict as the execute argument. -/
theorem claim10_shared_header_object_witness :
    svcMutW.hasProvideToken = true
    ∧ svcMutW.hasPrehook = true
    ∧ svcMutW.hasExecute = true
    ∧ svcMutW.hasPosthook = true
    ∧ (svcMutW.prehook 0 (applyOverride svcMutW 0 baseHeadersW)).2 = false
    ∧ (runService svcMutW 0 0 baseHeadersW =
        [Event.provideCall 0,
         Event.prehookCall 0 (applyOverride svcMutW 0 baseHeadersW),
         Event.executeCall 0 ((svcMutW.prehook 0 (applyOverride svcMutW 0 baseHeadersW)).1),
         Event.posthookCall 0
           ((svcMutW.execute 0
             ((svcMutW.prehook 0 (applyOverride svcMutW 0 baseHeadersW)).1)).1)]
      ∧ headersArgs (runService svcMutW 0 0 baseHeadersW) =
          [applyOverride svcMutW 0 baseHeadersW,
           (svcMutW.prehook 0 (applyOverride svcMutW 0 baseHeadersW)).1,
           (svcMutW.execute 0
             ((svcMutW.prehook 0 (applyOverride svcMutW 0 baseHeadersW)).1)).1]) :=
  ⟨rfl, rfl, rfl, rfl, by decide,
   claim10_shared_header_object svcMutW 0 0 baseHeadersW rfl rfl rfl rfl (by decide)⟩

/-- Claim C2, per-service fault containment: the driver is a total function of
the services' behaviours (every stage outcome, raising included, is ordinary
data to it), and concretely: even though the execute of the service at index
`j` raises, its posthook is still called in the iteration; a service at a later
index `k` still receives all four lifecycle calls in order; and for any service
whose `provide_explicit_token` raises, the lifecycle continues with the
override absent (its prehook receives the unmodified base copy). -/
theorem claim2_fault_containment (i : Nat) (S : List Service) (base : Headers)
    (j k : Nat) (hj : j < S.length) (hk : k < S.length) (hjk : j < k)
    (hjexec : S[j].hasExecute = true)
    (hjexecRaises :
      (S[j].execute i ((S[j].prehook i (applyOverride S[j] i base)).1)).2 = true)
    (hjpost : S[j].hasPosthook = true)
    (hjpre : S[j].hasPrehook = true → (S[j].prehook i (applyOverride S[j] i base)).2 = false)
    (hk1 : S[k].hasProvideToken = true) (hk2 : S[k].hasPrehook = true)
    (hk3 : S[k].hasExecute = true) (hk4 : S[k].hasPosthook = true)
    (hkpre : (S[k].prehook i (applyOverride S[k] i base)).2 = false) :
    (∃ h, Event.posthookCall j h ∈ eventsOf j (execute_services S i base))
    ∧ (eventsOf k (execute_services S i base)).map eventRank = [0, 1, 2, 3]
    ∧ (∀ s : Service, ∀ m : Nat, s.provideToken i = TokenOutcome.raised →
        applyOverride s i base = base
        ∧ prehookArgs (runService s i m base) =
            if s.hasPrehook = true then [base] else []) := by
  refine ⟨?_, ?_, ?_⟩
  · rw [eventsOf_execute_services S i j base hj]
    exact posthook_mem_runService S[j] i j base hjpost hjpre
  · rw [eventsOf_execute_services S i k base hk,
      runService_full S[k] i k base hk1 hk2 hk3 hk4 hkpre]
    simp [eventRank]
  · intro s m hraise
    have hov : applyOverride s i base = base :=
      applyOverride_noOverride s i base (Or.inl hraise)
    exact ⟨hov, by rw [prehookArgs_runService, hov]⟩

/-- Witness for C2 at a concrete input: `svcMutW` (raising execute) at index 0,
`svcPlainW` at index 1, plus a service with a raising `provide_explicit_token`
fed to the third conjunct. -/
theorem claim2_fault_containment_witness :
    (svcMutW.execute 0 ((svcMutW.prehook 0 (applyOverride svcMutW 0 baseHeadersW)).1)).2 = true
    ∧ (∃ h, Event.posthookCall 0 h ∈
        eventsOf 0 (execute_services [svcMutW, svcPlainW] 0 baseHeadersW))
    ∧ (eventsOf 1 (execute_services [svcMutW, svcPlainW] 0 baseHeadersW)).map eventRank =
        [0, 1, 2, 3]
    ∧ (svcProvideRaisesW.provideToken 0 = TokenOutcome.raised →
        applyOverride svcProvideRaisesW 0 baseHeadersW = baseHeadersW
        ∧ prehookArgs (runService svcProvideRaisesW 0 0 baseHeadersW) =
            if svcProvideRaisesW.hasPrehook = true then [baseHeadersW] else []) := by
  have h := claim2_fault_containment 0 [svcMutW, svcPlainW] baseHeadersW 0 1
    (by decide) (by decide) (by decide) rfl (by decide) rfl (fun _ => by decide)
    rfl rfl rfl rfl (by decide)
  exact ⟨by decide, h.1, h.2.1, h.2.2 svcProvideRaisesW 0⟩

/-- Claim C4, token override semantics: when the service at index `j` returns a
non-empty token `v`, the driver sets `Authorization` to `Bearer v` on `j`'s
private copy before the hooks run, and (as long as the service's own hooks do
not rewrite the entry) every headers argument of `j`'s prehook, execute and
posthook carries `Bearer v`; a sibling at index `k` whose token call raises or
returns an empty/absent value keeps the untouched base copy and sees the
session default in every stage. -/
theorem claim4_token_override (i : Nat) (S : List Service) (base : Headers)
    (j k : Nat) (hj : j < S.length) (hk : k < S.length) (v : String)
    (hjp : S[j].hasProvideToken = true)
    (hv : S[j].provideToken i = TokenOutcome.returned (some v)) (hne : v ≠ "")
    (hjpreP : ∀ x, getH (S[j].prehook i x).1 "Authorization" = getH x "Authorization")
    (hjexecP : ∀ x, getH (S[j].execute i x).1 "Authorization" = getH x "Authorization")
    (hkno : S[k].provideToken i = TokenOutcome.raised ∨
      S[k].provideToken i = TokenOutcome.returned none ∨
      S[k].provideToken i = TokenOutcome.returned (some ""))
    (hkpreP : ∀ x, getH (S[k].prehook i x).1 "Authorization" = getH x "Authorization")
    (hkexecP : ∀ x, getH (S[k].execute i x).1 "Authorization" = getH x "Authorization") :
    getH (applyOverride S[j] i base) "Authorization" = some ("Bearer " ++ v)
    ∧ (∀ h ∈ headersArgs (runService S[j] i j base),
        getH h "Authorization" = some ("Bearer " ++ v))
    ∧ applyOverride S[k] i base = base
    ∧ (∀ h ∈ headersArgs (runService S[k] i k base),
        getH h "Authorization" = getH base "Authorization") := by
  have h1 : applyOverride S[j] i base = setH base "Authorization" ("Bearer " ++ v) :=
    applyOverride_some _ i base v hjp hv hne
  have hauth : getH (applyOverride S[j] i base) "Authorization" = some ("Bearer " ++ v) := by
    rw [h1, getH_setH_self]
  have hko : applyOverride S[k] i base = base := applyOverride_noOverride _ i base hkno
  refine ⟨hauth, ?_, hko, ?_⟩
  · intro h hmem
    rw [headersArgs_runService_auth hjpreP hjexecP hmem, hauth]
  · intro h hmem
    rw [headersArgs_runService_auth hkpreP hkexecP hmem, hko]

/-- Witness for C4 at a concrete input: `svcOverrideW` (token `tok123`) at
index 0 and `svcPlainW` (no override) at index 1. -/
theorem claim4_token_override_witness :
    svcOverrideW.provideToken 0 = TokenOutcome.returned (some "tok123")
    ∧ ("tok123" : String) ≠ ""
    ∧ (getH (applyOverride svcOverrideW 0 baseHeadersW) "Authorization" =
        some ("Bearer " ++ "tok123")
      ∧ (∀ h ∈ headersArgs (runService svcOverrideW 0 0 baseHeadersW),
          getH h "Authorization" = some ("Bearer " ++ "tok123"))
      ∧ applyOverride svcPlainW 0 baseHeadersW = baseHeadersW
      ∧ (∀ h ∈ headersArgs (runService svcPlainW 0 1 baseHeadersW),
          getH h "Authorization" = getH baseHeadersW "Authorization")) :=
  ⟨rfl, by decide,
   claim4_token_override 0 [svcOverrideW, svcPlainW] baseHeadersW 0 1
     (by decide) (by decide) "tok123" rfl rfl (by decide)
     (fun x => rfl) (fun x => rfl) (Or.inr (Or.inl rfl)) (fun x => rfl) (fun x => rfl)⟩

/-- Claim C8, ordering of execution: in one task invocation the sequence of
service indices in the driver's call trace is nondecreasing (services are
visited sequentially in registration order, never interleaved), within each
service the stage ranks (token-provision 0, prehook 1, execute 2, posthook 3)
are strictly increasing (the fixed order, never reordered or repeated), and a
fully equipped service with a non-raising prehook receives exactly the four
stages in that order. -/
theorem claim8_ordering (i : Nat) (S : List Service) (base : Headers) :
    List.Sorted (· ≤ ·) ((execute_services S i base).map Event.svc)
    ∧ (∀ k, (hk : k < S.length) →
        List.Chain' (· < ·) ((eventsOf k (execute_services S i base)).map eventRank))
    ∧ (∀ k, (hk : k < S.length) →
        S[k].hasProvideToken = true → S[k].hasPrehook = true →
        S[k].hasExecute = true → S[k].hasPosthook = true →
        (S[k].prehook i (applyOverride S[k] i base)).2 = false →
        (eventsOf k (execute_services S i base)).map eventRank = [0, 1, 2, 3]) := by
  refine ⟨sorted_svc_loopServices S i 0 base, ?_, ?_⟩
  · intro k hk
    rw [eventsOf_execute_services S i k base hk]
    exact chain_rank_runService S[k] i k base
  · intro k hk h1 h2 h3 h4 hnr
    rw [eventsOf_execute_services S i k base hk,
      runService_full S[k] i k base h1 h2 h3 h4 hnr]
    simp [eventRank]

/-- Witness for C8 at a concrete input: two services, the first with a raising
execute, exercising the sortedness, the chain and the full-lifecycle shape. -/
theorem claim8_ordering_witness :
    List.Sorted (· ≤ ·)
      ((execute_services [svcMutW, svcPlainW] 0 baseHeadersW).map Event.svc)
    ∧ List.Chain' (· < ·)
        ((eventsOf 0 (execute_services [svcMutW, svcPlainW] 0 baseHeadersW)).map eventRank)
    ∧ (eventsOf 1 (execute_services [svcMutW, svcPlainW] 0 baseHeadersW)).map eventRank =
        [0, 1, 2, 3] := by
  have h := claim8_ordering 0 [svcMutW, svcPlainW] baseHeadersW
  exact ⟨h.1, h.2.1 0 (by decide),
    h.2.2 1 (by decide) rfl rfl rfl rfl (by decide)⟩

/-- Claim C6, header construction never crashes on credential failure:
`prepare_headers` is a total function of the environment decision and the token
acquisition outcome — for every outcome, including the identity provider
raising (in which case `get_access_token` yields `none` instead of
propagating), the resulting header set carries Content-Type, the partition
marker, the correlation id and an Authorization entry; a failed acquisition
yields the invalid value `Bearer None` rather than an exception. -/
theorem claim6_headers_never_crash (is_azure : Bool) (partition app_id : String)
    (acq : Bool → TokenAcquisition) :
    getH (prepare_headers is_azure partition app_id acq) "Content-Type" =
      some "application/json"
    ∧ getH (prepare_headers is_azure partition app_id acq) "x-data-partition-id" =
        some partition
    ∧ getH (prepare_headers is_azure partition app_id acq) "x-correlation-id" =
        some app_id
    ∧ (∃ a, getH (prepare_headers is_azure partition app_id acq) "Authorization" = some a)
    ∧ (acq is_azure = TokenAcquisition.failure →
        getH (prepare_headers is_azure partition app_id acq) "Authorization" =
          some "Bearer None") := by
  refine ⟨by simp [prepare_headers, getH], by simp [prepare_headers, getH],
    by simp [prepare_headers, getH], ?_, ?_⟩
  · exact ⟨"Bearer " ++ pyInterp (get_access_token (acq is_azure)),
      by simp [prepare_headers, getH]⟩
  · intro hfail
    simp [prepare_headers, getH, hfail, get_access_token, pyInterp]

/-- Witness for C6 at a concrete input: managed-identity environment with a
failing acquisition. -/
theorem claim6_headers_never_crash_witness :
    acqFailW true = TokenAcquisition.failure
    ∧ getH (prepare_headers true "p1" "app1" acqFailW) "Authorization" =
        some "Bearer None" :=
  ⟨rfl, (claim6_headers_never_crash true "p1" "app1" acqFailW).2.2.2.2 rfl⟩

/-- Claim C7, environment decision is a pure function of environment signals:
the managed/unattended strategy is selected exactly when `AZURE_LOAD_TEST`
equals `true` or one of `LOCUST_HOST`, `LOCUST_USERS`, `LOCUST_RUN_TIME`,
`LOCUST_SPAWN_RATE` is set; with none of the signals present the interactive
Azure-CLI strategy is chosen; and two environments agreeing on those five
variables always yield the same decision (it depends on no other state). -/
theorem claim7_environment_detection (env env2 : String → Option String)
    (h1 : env "AZURE_LOAD_TEST" = env2 "AZURE_LOAD_TEST")
    (h2 : env "LOCUST_HOST" = env2 "LOCUST_HOST")
    (h3 : env "LOCUST_USERS" = env2 "LOCUST_USERS")
    (h4 : env "LOCUST_RUN_TIME" = env2 "LOCUST_RUN_TIME")
    (h5 : env "LOCUST_SPAWN_RATE" = env2 "LOCUST_SPAWN_RATE") :
    (credentialStrategy env = AuthStrategy.managedIdentity ↔
      (env "AZURE_LOAD_TEST" = some "true" ∨ env "LOCUST_HOST" ≠ none ∨
        env "LOCUST_USERS" ≠ none ∨ env "LOCUST_RUN_TIME" ≠ none ∨
        env "LOCUST_SPAWN_RATE" ≠ none))
    ∧ (¬(env "AZURE_LOAD_TEST" = some "true" ∨ env "LOCUST_HOST" ≠ none ∨
        env "LOCUST_USERS" ≠ none ∨ env "LOCUST_RUN_TIME" ≠ none ∨
        env "LOCUST_SPAWN_RATE" ≠ none) →
        credentialStrategy env = AuthStrategy.azureCli)
    ∧ credentialStrategy env = credentialStrategy env2 := by
  have hdet : ∀ e : String → Option String,
      detect_azure_load_test_environment e = true ↔
        (e "AZURE_LOAD_TEST" = some "true" ∨ e "LOCUST_HOST" ≠ none ∨
          e "LOCUST_USERS" ≠ none ∨ e "LOCUST_RUN_TIME" ≠ none ∨
          e "LOCUST_SPAWN_RATE" ≠ none) := by
    intro e
    unfold detect_azure_load_test_environment
    split_ifs with a b c d f
    · simp only [true_iff]
      exact Or.inl a
    · simp only [true_iff]
      exact Or.inr (Or.inl b)
    · simp only [true_iff]
      exact Or.inr (Or.inr (Or.inl c))
    · simp only [true_iff]
      exact Or.inr (Or.inr (Or.inr (Or.inl d)))
    · simp only [true_iff]
      exact Or.inr (Or.inr (Or.inr (Or.inr f)))
    · simp only [Bool.false_eq_true, false_iff]
      push_neg
      push_neg at b c d f
      exact ⟨a, b, c, d, f⟩
  have hstrat : ∀ e : String → Option String,
      credentialStrategy e = AuthStrategy.managedIdentity ↔
        detect_azure_load_test_environment e = true := by
    intro e
    unfold credentialStrategy
    split
    · simp only [true_iff]
      assumption
    · rename_i hfalse
      simp only [Bool.not_eq_true] at hfalse
      simp [hfalse]
  have hdeteq : detect_azure_load_test_environment env =
      detect_azure_load_test_environment env2 := by
    unfold detect_azure_load_test_environment
    rw [h1, h2, h3, h4, h5]
  refine ⟨(hstrat env).trans (hdet env), ?_, ?_⟩
  · intro hnone
    rcases hcs : credentialStrategy env with _ | _
    · exact absurd ((hstrat env).mp hcs) (by rw [hdet env]; exact hnone)
    · rfl
  · unfold credentialStrategy
    rw [hdeteq]

/-- Witness for C7 at concrete inputs: an environment with only `LOCUST_HOST`
set (compared against itself), together with the default decision on the empty
environment obtained from the theorem's second conjunct. -/
theorem claim7_environment_detection_witness :
    envLoadTestW "AZURE_LOAD_TEST" = envLoadTestW "AZURE_LOAD_TEST"
    ∧ (credentialStrategy envLoadTestW = AuthStrategy.managedIdentity ↔
        (envLoadTestW "AZURE_LOAD_TEST" = some "true" ∨ envLoadTestW "LOCUST_HOST" ≠ none ∨
          envLoadTestW "LOCUST_USERS" ≠ none ∨ envLoadTestW "LOCUST_RUN_TIME" ≠ none ∨
          envLoadTestW "LOCUST_SPAWN_RATE" ≠ none))
    ∧ credentialStrategy envLocalW = AuthStrategy.azureCli :=
  ⟨rfl,
   (claim7_environment_detection envLoadTestW envLoadTestW rfl rfl rfl rfl rfl).1,
   (claim7_environment_detection envLocalW envLocalW rfl rfl rfl rfl rfl).2.1
     (by decide)⟩

/-- Claim C9, registry idempotence and no-duplicate invariant: registering an
instance already present leaves `get_services` unchanged; registering keeps
every instance's multiplicity at most one; two distinct instances sharing a
name are both retained; and unregistering an absent instance is a no-op rather
than an error. -/
theorem claim9_registry_invariants (r : List ServiceInstance) :
    (∀ s ∈ r, get_services (register_instance r s) = get_services r)
    ∧ (∀ s1 s2 : ServiceInstance, s1 ≠ s2 → s1.name = s2.name →
        s1 ∈ get_services (register_instance (register_instance r s1) s2)
        ∧ s2 ∈ get_services (register_instance (register_instance r s1) s2))
    ∧ (∀ s : ServiceInstance, s ∉ r → unregister_service r s = r)
    ∧ (∀ s u : ServiceInstance, (get_services r).count u ≤ 1 →
        (get_services (register_instance r s)).count u ≤ 1) := by
  have hself : ∀ (l : List ServiceInstance) (t : ServiceInstance),
      t ∈ register_instance l t := by
    intro l t
    unfold register_instance
    split
    · assumption
    · exact List.mem_append_right _ (by simp)
  have hmono : ∀ (l : List ServiceInstance) (t u : ServiceInstance),
      t ∈ l → t ∈ register_instance l u := by
    intro l t u ht
    unfold register_instance
    split
    · exact ht
    · exact List.mem_append_left _ ht
  refine ⟨?_, ?_, ?_, ?_⟩
  · intro s hs
    simp [register_instance, get_services, hs]
  · intro s1 s2 hne hname
    exact ⟨hmono _ s1 s2 (hself r s1), hself _ s2⟩
  · intro s hs
    simp [unregister_service, hs]
  · intro s u hcount
    unfold get_services at hcount ⊢
    unfold register_instance
    split
    · exact hcount
    · rename_i hnot
      rw [List.count_append]
      by_cases hus : u = s
      · subst hus
        rw [List.count_eq_zero.mpr hnot]
        simp
      · have hz : List.count u [s] = 0 := by
          simp [List.count_cons, hus]
        omega

/-- Witness for C9 at concrete inputs: a one-element registry, re-registration
of the resident instance, a same-named distinct pair, and removal of an absent
instance. -/
theorem claim9_registry_invariants_witness :
    instW0 ∈ ([instW0] : List ServiceInstance)
    ∧ get_services (register_instance [instW0] instW0) = get_services [instW0]
    ∧ instW0 ≠ instW1
    ∧ instW0.name = instW1.name
    ∧ (instW0 ∈ get_services (register_instance (register_instance [] instW0) instW1)
      ∧ instW1 ∈ get_services (register_instance (register_instance [] instW0) instW1))
    ∧ instW1 ∉ ([instW0] : List ServiceInstance)
    ∧ unregister_service [instW0] instW1 = [instW0] := by
  refine ⟨by decide, ?_, by decide, by decide, ?_, by decide, ?_⟩
  · exact (claim9_registry_invariants [instW0]).1 instW0 (by decide)
  · exact (claim9_registry_invariants []).2.1 instW0 instW1 (by decide) (by decide)
  · exact (claim9_registry_invariants [instW0]).2.2.1 instW1 (by decide)

/-- Claim C5 evaluation: the contract's declared python signatures — taken from
base_service.py, where `execute` declares the keyword `host` (not `base_url`)
and `prehook`/`posthook` declare no parameters besides `self` — reject the
keyword set `headers`, `partition`, `base_url` that the driver passes to each
of the three hooks, so a service implementing exactly the declared signatures
raises `TypeError` at each stage call instead of binding successfully. -/
theorem claim5_contract_binding_fails :
    bindsKwargs base_service_prehook_sig driver_call_kwargs = false
    ∧ bindsKwargs base_service_execute_sig driver_call_kwargs = false
    ∧ bindsKwargs base_service_posthook_sig driver_call_kwargs = false := by
  decide

end OsduPerf
